import Mathlib

/-!
Verification of the `boiler` compile-time re-export helpers.

The repository consists of four declarative helpers defined in
`src/lib.rs`: `bundle` (forwards a path to `automod::dir`), `expose`
(one `#[allow(unused_imports)] pub use m::*;` per identifier),
`package` (same but through `super::`), and `extend` (a single private
`use super::*;`).  We embed emitted statements as an inductive type,
the comma-separated argument grammar as a token-list recogniser, and
each helper as a function from its parsed arguments to the list of
statements it emits.
-/

/-- An import/re-export statement of the shape
`#[allow(unused_imports)]? pub? use seg1::…::segN::*;`
as emitted by the helpers: `allowUnusedImports` records whether the
lint-allow attribute is attached, `isPub` whether the statement is a
public re-export, `pathSegments` the path before the final `::*`. -/
structure UseStmt where
  allowUnusedImports : Bool
  isPub : Bool
  pathSegments : List String
deriving DecidableEq, Repr

/-- One statement emitted by an expansion: either a glob `use`
statement or the delegated `automod::dir!(path);` invocation. -/
inductive Stmt where
  | useGlob (u : UseStmt)
  | automodDir (path : String)
deriving DecidableEq, Repr

/-- Renders a statement back to source text. -/
def renderStmt : Stmt → String
  | .useGlob u =>
      (if u.allowUnusedImports then "#[allow(unused_imports)] " else "")
        ++ (if u.isPub then "pub " else "")
        ++ "use " ++ String.intercalate "::" (u.pathSegments ++ ["*"]) ++ ";"
  | .automodDir p => "automod::dir!(\"" ++ p ++ "\");"

/-- The statement `expose` emits for one identifier `m`:
`#[allow(unused_imports)] pub use m::*;` (sibling path, no `super`). -/
def exposeStmt (m : String) : Stmt :=
  .useGlob ⟨true, true, [m]⟩

/-- Expansion of `expose` on its parsed identifier list
(`$( #[allow(unused_imports)] pub use $module::*; )*`). -/
def expose (modules : List String) : List Stmt :=
  modules.map exposeStmt

/-- The statement `package` emits for one identifier `m`:
`#[allow(unused_imports)] pub use super::m::*;`. -/
def packageStmt (m : String) : Stmt :=
  .useGlob ⟨true, true, ["super", m]⟩

/-- Expansion of `package` on its parsed identifier list
(`$( #[allow(unused_imports)] pub use super::$module::*; )*`). -/
def package (modules : List String) : List Stmt :=
  modules.map packageStmt

/-- Expansion of the zero-argument `extend` helper: `use super::*;`. -/
def extend : List Stmt :=
  [.useGlob ⟨false, false, ["super"]⟩]

/-- Expansion of `bundle` on its path argument: `automod::dir!($path);`. -/
def bundle (path : String) : List Stmt :=
  [.automodDir path]

/-- An argument token of an `expose`/`package` invocation. -/
inductive Token where
  | ident (name : String)
  | comma
deriving DecidableEq, Repr

/-- Recognises the continuation of the matcher `$( $module:ident ),* $(,)?`
after the first identifier: a possibly empty run of `, ident` pairs
followed by an optional trailing comma. -/
def parseRest : List Token → Option (List String)
  | [] => some []
  | [Token.comma] => some []
  | Token.comma :: Token.ident m :: rest => (parseRest rest).map (m :: ·)
  | _ => none

/-- Recognises the full matcher `$( $module:ident ),* $(,)?` of
`expose`/`package`, returning the matched identifiers in order. -/
def parseArgs : List Token → Option (List String)
  | [] => some []
  | [Token.comma] => some []
  | Token.ident m :: rest => (parseRest rest).map (m :: ·)
  | _ => none

/-- An invocation of one of the four helpers, by name and argument
tokens — the entire invocation text. -/
inductive Invocation where
  | bundleInv (path : String)
  | exposeInv (args : List Token)
  | packageInv (args : List Token)
  | extendInv
deriving DecidableEq, Repr

/-- Expands one invocation: parses the arguments against the helper's
matcher and emits the helper's statements; `none` is a match failure. -/
def expand : Invocation → Option (List Stmt)
  | .bundleInv p => some (bundle p)
  | .exposeInv ts => (parseArgs ts).map expose
  | .packageInv ts => (parseArgs ts).map package
  | .extendInv => some extend

/-- Comma-then-identifier token pairs for the tail of an identifier list. -/
def tailTokens : List String → List Token
  | [] => []
  | m :: rest => Token.comma :: Token.ident m :: tailTokens rest

/-- The token spelling of an identifier list: identifiers separated by
commas, no trailing comma. -/
def tokensOfList : List String → List Token
  | [] => []
  | m :: rest => Token.ident m :: tailTokens rest

/-- Whether a statement carries the `#[allow(unused_imports)]` attribute. -/
def hasAllowUnusedImports : Stmt → Bool
  | .useGlob u => u.allowUnusedImports
  | .automodDir _ => false

/-- Whether a statement is a public re-export (`pub use …`). -/
def isPubUse : Stmt → Bool
  | .useGlob u => u.isPub
  | .automodDir _ => false

/-- Requalifies a `use` statement through the parent scope by pushing a
`super` segment in front of its path. -/
def superQualify : Stmt → Stmt
  | .useGlob u => .useGlob ⟨u.allowUnusedImports, u.isPub, "super" :: u.pathSegments⟩
  | .automodDir p => .automodDir p

lemma parseRest_tailTokens (ms : List String) :
    parseRest (tailTokens ms) = some ms ∧
      parseRest (tailTokens ms ++ [Token.comma]) = some ms := by
  induction ms with
  | nil => simp [tailTokens, parseRest]
  | cons m rest ih => simp [tailTokens, parseRest, ih.1, ih.2]

lemma parse_tokensOfList (ms : List String) :
    parseArgs (tokensOfList ms) = some ms := by
  cases ms with
  | nil => rfl
  | cons m rest => simp [tokensOfList, parseArgs, (parseRest_tailTokens rest).1]

lemma parse_tokensOfList_trailing (ms : List String) :
    parseArgs (tokensOfList ms ++ [Token.comma]) = some ms := by
  cases ms with
  | nil => rfl
  | cons m rest => simp [tokensOfList, parseArgs, (parseRest_tailTokens rest).2]

lemma exposeStmt_injective : Function.Injective exposeStmt := by
  intro a b h
  simpa [exposeStmt] using h

lemma packageStmt_injective : Function.Injective packageStmt := by
  intro a b h
  simpa [packageStmt] using h

/-- C1: for every list of identifiers, `expose` emits exactly one
re-export statement per identifier, the k-th statement re-exporting all
public items of the k-th identifier as a sibling module, in input order. -/
theorem expose_one_stmt_per_ident (ms : List String) :
    (expose ms).length = ms.length ∧
      ∀ (k : Nat) (m : String), ms[k]? = some m →
        (expose ms)[k]? = some (exposeStmt m) := by
  refine ⟨by simp [expose], ?_⟩
  intro k m h
  simp [expose, h]

theorem expose_one_stmt_per_ident_witness :
    (["models", "utils"] : List String)[1]? = some "utils" ∧
      (expose ["models", "utils"])[1]? = some (exposeStmt "utils") :=
  ⟨rfl, (expose_one_stmt_per_ident ["models", "utils"]).2 1 "utils" rfl⟩

/-- C2: `package` expands exactly like `expose` on the same identifier
list, except that every emitted statement is additionally qualified
through the parent scope (`super::`). -/
theorem package_eq_superQualified_expose (ms : List String) :
    package ms = (expose ms).map superQualify := by
  induction ms with
  | nil => rfl
  | cons m rest ih =>
      simp [package, expose, exposeStmt, packageStmt, superQualify]

/-- C3: the zero-argument `extend` helper always expands to exactly one
statement, a glob import of the immediately enclosing (parent) scope,
independent of any context. -/
theorem extend_single_parent_import :
    expand Invocation.extendInv = some extend ∧
      extend.length = 1 ∧
      extend = [Stmt.useGlob ⟨false, false, ["super"]⟩] ∧
      extend.map renderStmt = ["use super::*;"] := by
  refine ⟨rfl, rfl, rfl, ?_⟩
  decide

/-- C4: expansion is a deterministic function of the invocation text
alone: equal invocations expand to equal statement lists and render to
byte-identical output text. -/
theorem expand_deterministic (i j : Invocation) (h : i = j) :
    expand i = expand j ∧
      Option.map (List.map renderStmt) (expand i)
        = Option.map (List.map renderStmt) (expand j) := by
  subst h
  exact ⟨rfl, rfl⟩

theorem expand_deterministic_witness :
    Invocation.extendInv = Invocation.extendInv ∧
      expand Invocation.extendInv = expand Invocation.extendInv :=
  ⟨rfl, (expand_deterministic Invocation.extendInv Invocation.extendInv rfl).1⟩

/-- C5: `bundle` expands to exactly one statement, the delegating
`automod::dir!` invocation carrying the path argument unchanged; no
other statement, discovery logic or validation is produced. -/
theorem bundle_forwards_path (p : String) :
    bundle p = [Stmt.automodDir p] ∧
      (bundle p).length = 1 ∧
      expand (Invocation.bundleInv p) = some [Stmt.automodDir p] :=
  ⟨rfl, rfl, rfl⟩

/-- C6: invoking `expose` or `package` with zero identifiers is accepted
by the matcher and expands to zero statements. -/
theorem zero_idents_expand_to_nothing :
    expand (Invocation.exposeInv []) = some [] ∧
      expand (Invocation.packageInv []) = some [] ∧
      expose [] = [] ∧ package [] = [] :=
  ⟨rfl, rfl, rfl, rfl⟩

/-- C7: the matcher of `expose`/`package` accepts any comma-separated
identifier list with an optional trailing comma, and adding the
trailing comma leaves the expansion unchanged. -/
theorem trailing_comma_irrelevant (ms : List String) :
    parseArgs (tokensOfList ms) = some ms ∧
      parseArgs (tokensOfList ms ++ [Token.comma]) = some ms ∧
      expand (Invocation.exposeInv (tokensOfList ms ++ [Token.comma]))
        = expand (Invocation.exposeInv (tokensOfList ms)) ∧
      expand (Invocation.packageInv (tokensOfList ms ++ [Token.comma]))
        = expand (Invocation.packageInv (tokensOfList ms)) := by
  refine ⟨parse_tokensOfList ms, parse_tokensOfList_trailing ms, ?_, ?_⟩ <;>
    simp [expand, parse_tokensOfList ms, parse_tokensOfList_trailing ms]

/-- C8: duplicate identifiers are neither deduplicated nor rejected:
each occurrence of an identifier contributes its own statement, so the
statement for `m` appears as often as `m` appears in the input. -/
theorem duplicate_idents_duplicate_stmts (ms : List String) (m : String) :
    (expose ms).count (exposeStmt m) = ms.count m ∧
      (package ms).count (packageStmt m) = ms.count m :=
  ⟨List.count_map_of_injective ms exposeStmt exposeStmt_injective m,
   List.count_map_of_injective ms packageStmt packageStmt_injective m⟩

/-- C9: every statement emitted by `expose` and by `package` carries the
`#[allow(unused_imports)]` attribute. -/
theorem emitted_stmts_allow_unused_imports (ms : List String) :
    (∀ s ∈ expose ms, hasAllowUnusedImports s = true) ∧
      (∀ s ∈ package ms, hasAllowUnusedImports s = true) := by
  constructor <;>
    · intro s hs
      simp [expose, package] at hs
      obtain ⟨m, _, rfl⟩ := hs
      rfl

theorem emitted_stmts_allow_unused_imports_witness :
    exposeStmt "models" ∈ expose ["models"] ∧
      hasAllowUnusedImports (exposeStmt "models") = true :=
  ⟨by simp [expose],
   (emitted_stmts_allow_unused_imports ["models"]).1 (exposeStmt "models")
     (by simp [expose])⟩

/-- C10: `extend` emits a private import (`use super::*;`) rather than a
public re-export: its single statement is not `pub`, in contrast with
every statement of `expose` and `package`, which are. -/
theorem extend_import_is_private :
    (∀ s ∈ extend, isPubUse s = false) ∧
      (∀ m : String, isPubUse (exposeStmt m) = true ∧
        isPubUse (packageStmt m) = true) := by
  refine ⟨?_, fun m => ⟨rfl, rfl⟩⟩
  intro s hs
  simp [extend] at hs
  subst hs
  rfl

theorem extend_import_is_private_witness :
    Stmt.useGlob (UseStmt.mk false false ["super"]) ∈ extend ∧
      isPubUse (Stmt.useGlob (UseStmt.mk false false ["super"])) = false :=
  ⟨by simp [extend],
   extend_import_is_private.1 (Stmt.useGlob (UseStmt.mk false false ["super"]))
     (by simp [extend])⟩
